import Mathlib

/-!
Verification of the signal-analysis subsystem of the Streamlit dashboard
(source: src/Pages/3_STL_and_Spectrogram.py).

The embedding models the two analysis functions `stl_analysis` and
`spectrogram_analysis` together with the series-selection stage they share
(filter by the two categorical keys, sort by parsed start time, forward-fill
then backward-fill).  Numeric values are rationals (ℚ); a missing value
(NaN before gap filling) is `Option.none`.  Timestamps are natural numbers:
the source only sorts by them.

The two functions return `(fig, None)` on success and `(None, message)` on a
handled error; an exception escaping the function (caught only by the page
shell's catch-all) is a third outcome.  The outcome types below mirror that.

External primitives that are not part of the repository are parameters of the
embedding: the scipy spectrogram path (`scipyImpl`) and the per-segment
windowed FFT power computation (`powerOf`, standing for
`|rfft(seg * hanning(L))|^2 / (sum(window^2) + 1e-16)`, whose transcendental
window values have no computable exact embedding).  Everything the verified
claims speak about — selection, gap filling, validation, segment geometry,
segment count and the decomposition bookkeeping — is embedded from the source.
-/

namespace Spec2Proof

/-- One record of the production dataset: the two categorical filter keys,
the parsed start time (sort key) and the quantity, `none` for a missing
value.  From the source's DataFrame columns `priceArea`, `productionGroup`,
`startTime_parsed`, `quantityKwh`. -/
structure Row where
  priceArea : String
  productionGroup : String
  startTime : ℕ
  quantityKwh : Option ℚ
deriving Repr, DecidableEq

/-- `df[(df['priceArea'] == price_area) & (df['productionGroup'] == production_group)]`. -/
def filterRows (df : List Row) (pa pg : String) : List Row :=
  df.filter (fun r => r.priceArea == pa && r.productionGroup == pg)

/-- Insert one row into a list already sorted by `startTime` (helper of
`sortRows`). -/
def insertRow (r : Row) : List Row → List Row
  | [] => [r]
  | s :: rest =>
    if r.startTime ≤ s.startTime then r :: s :: rest else s :: insertRow r rest

/-- `filtered.sort_values('startTime_parsed')`: a stable sort, ascending by
the parsed start time. -/
def sortRows : List Row → List Row
  | [] => []
  | r :: rest => insertRow r (sortRows rest)

/-- Forward fill, carrying `carry` (the last value seen so far) into missing
positions: helper of `ffill`. -/
def ffillFrom (carry : Option ℚ) : List (Option ℚ) → List (Option ℚ)
  | [] => []
  | some x :: rest => some x :: ffillFrom (some x) rest
  | none :: rest => carry :: ffillFrom carry rest

/-- `Series.ffill()`: each missing value is replaced by the nearest earlier
present value, if any. -/
def ffill (xs : List (Option ℚ)) : List (Option ℚ) :=
  ffillFrom none xs

/-- `Series.bfill()`: each missing value is replaced by the nearest later
present value, if any (forward fill on the reversed list). -/
def bfill (xs : List (Option ℚ)) : List (Option ℚ) :=
  (ffill xs.reverse).reverse

/-- `.ffill().bfill()`, the gap filling both engines apply to the selected
series. -/
def fillMissing (xs : List (Option ℚ)) : List (Option ℚ) :=
  bfill (ffill xs)

/-- The quantity column of a set of rows, in startTime order:
`filtered.sort_values('startTime_parsed')['quantityKwh'].values`. -/
def seriesValues (rows : List Row) : List (Option ℚ) :=
  (sortRows rows).map (fun r => r.quantityKwh)

/-- The cleaned numeric series handed to the engines.  After
`fillMissing`, a position is still `none` only when every value of the
selected series is missing; the source would propagate NaN there, which has
no rational counterpart, so that (degenerate, all-missing) case is read as 0. -/
def toSeries (xs : List (Option ℚ)) : List ℚ :=
  (fillMissing xs).map (fun o => o.getD 0)

/-- The series the selector stage produces for a filter pair: filter, sort,
forward/backward fill. -/
def selectSeries (df : List Row) (pa pg : String) : List ℚ :=
  toSeries (seriesValues (filterRows df pa pg))

/-! ### Error messages (verbatim from the source) -/

def noDataMsg : String := "No data available for selected combination"

def invalidWindowMsg : String := "Invalid window settings for spectrogram"

def notEnoughDataMsg : String := "Not enough data for selected window/overlap settings"

def stlUnavailableMsg : String :=
  "STL decomposition is unavailable because statsmodels could not be imported; please install statsmodels in your environment (e.g. pip install statsmodels)"

/-! ### Spectrogram fallback geometry (the NumPy STFT branch) -/

/-- `step = max(1, nperseg - noverlap)`.  Natural subtraction truncates at 0
exactly as Python's `max(1, ...)` clamps a nonpositive difference to 1. -/
def stepOf (L V : ℕ) : ℕ := max 1 (L - V)

/-- `segments = max(0, (n - noverlap + step - 1) // step)`.  Python's `//` on
possibly negative numerators is floor division, so the model computes with
`Int.fdiv` before clamping at 0. -/
def fallbackSegments (n L V : ℕ) : ℕ :=
  (max 0 (((n : ℤ) - (V : ℤ) + (stepOf L V : ℤ) - 1).fdiv (stepOf L V : ℤ))).toNat

/-- `np.fft.rfftfreq(nperseg, d=1.0)`: the `⌊L/2⌋ + 1` frequency bins `k / L`. -/
def rfftfreq (L : ℕ) : List ℚ :=
  (List.range (L / 2 + 1)).map (fun k => (k : ℚ) / (L : ℚ))

/-- `times = (np.arange(segments) * step).astype(float)`. -/
def fallbackTimes (n L V : ℕ) : List ℚ :=
  (List.range (fallbackSegments n L V)).map (fun i => ((i * stepOf L V : ℕ) : ℚ))

/-- `seg = production[start:start+nperseg]`, right-padded with zeros to length
`nperseg` when the slice is short (`np.pad(seg, (0, nperseg - len(seg)), 'constant')`). -/
def extractSegment (production : List ℚ) (L start : ℕ) : List ℚ :=
  let seg := (production.drop start).take L
  seg ++ List.replicate (L - seg.length) 0

/-- The loop `for i in range(segments): ... Sxx[:, i] = ...`: column `i` of the
power matrix is the windowed-FFT power of segment `i`, one column per
iteration.  `powerOf` stands for the windowed FFT power of one zero-padded
segment. -/
def fallbackColumns (powerOf : List ℚ → List ℚ) (production : List ℚ) (L V : ℕ) :
    List (List ℚ) :=
  (List.range (fallbackSegments production.length L V)).map
    (fun i => powerOf (extractSegment production L (i * stepOf L V)))

/-- The `(frequencies, times, Sxx)` triple either spectrogram branch produces;
`power` lists the matrix column by column (`power[i]` is `Sxx[:, i]`).  The
source then converts `Sxx` to decibels and renders it; the claims stop at the
numeric triple. -/
structure SpectroData where
  frequencies : List ℚ
  times : List ℚ
  power : List (List ℚ)
deriving Repr, DecidableEq

/-- `(fig, None)` versus `(None, message)`: the pair every analysis call
returns.  `figure` carries the numeric contents of the rendered figure. -/
inductive Outcome (α : Type) where
  | figure (a : α)
  | message (s : String)
deriving Repr, DecidableEq

/-- `spectrogram_analysis(df, price_area, production_group, window_length,
window_overlap)`.  `scipyAvailable` is the import-time `_SCIPY_AVAILABLE`
flag; `scipyImpl` is the external `scipy.signal.spectrogram` call of the
primary branch (not repository code, so a parameter); `powerOf` is the
windowed FFT power of one segment (see `fallbackColumns`).  The window
arguments are naturals: the page's sliders only supply nonnegative values. -/
def spectrogram_analysis (scipyAvailable : Bool)
    (scipyImpl : List ℚ → ℕ → ℕ → Outcome SpectroData)
    (powerOf : List ℚ → List ℚ)
    (df : List Row) (pa pg : String) (L V : ℕ) : Outcome SpectroData :=
  let filtered := filterRows df pa pg
  if filtered.length = 0 then .message noDataMsg
  else
    let production := toSeries (seriesValues filtered)
    if scipyAvailable then scipyImpl production L V
    else
      let n := production.length
      if n < 1 ∨ L = 0 then .message invalidWindowMsg
      else if fallbackSegments n L V = 0 then .message notEnoughDataMsg
      else
        .figure ⟨rfftfreq L, fallbackTimes n L V, fallbackColumns powerOf production L V⟩

/-! ### The decomposition engine -/

/-- The four aligned component series of `STL(...).fit()`. -/
structure StlResult where
  original : List ℚ
  trend : List ℚ
  seasonal : List ℚ
  resid : List ℚ
deriving Repr, DecidableEq

/-- The mean of a list (0 for the empty list). -/
def listAvg (xs : List ℚ) : ℚ :=
  if xs.length = 0 then 0 else xs.sum / (xs.length : ℚ)

/-- Modelled from the spec: the seasonal estimate of the statsmodels `STL`
primitive, which is not part of the repository — "estimate seasonal component
via local-regression smoothing over cycle-subseries of length `period`".
Each position takes the smoothed value of its cycle-subseries (the positions
congruent to it modulo `period`). -/
def seasonalComponent (xs : List ℚ) (period : ℕ) : List ℚ :=
  (List.range xs.length).map (fun i =>
    listAvg (((List.range xs.length).filter (fun j => j % period == i % period)).map
      (fun j => xs.getD j 0)))

/-- Modelled from the spec: the trend estimate of the statsmodels `STL`
primitive — "detrend and estimate trend via local-regression smoothing over
the full series" — here a centred local mean of half-width `w`. -/
def trendComponent (xs : List ℚ) (w : ℕ) : List ℚ :=
  (List.range xs.length).map (fun i =>
    listAvg (((List.range xs.length).filter
      (fun j => decide (i - w ≤ j ∧ j ≤ i + w))).map (fun j => xs.getD j 0)))

/-- Modelled from the spec: `STL(ts, period=period, seasonal=seasonal,
trend=trend, robust=robust).fit()`, the statsmodels primitive the engine
delegates to (not repository code).  Per the spec's algorithm: (1) estimate
the seasonal component over cycle-subseries of length `period`; (2) detrend
and estimate the trend by smoothing the deseasonalized series; (3)
`residual = original − trend − seasonal`.  `robust` only re-weights the
smoothing across iterations; a single pass is modelled, so it does not
change the result here. -/
def stlDecompose (xs : List ℚ) (period seasonal : ℕ) (robust : Bool) : StlResult :=
  let seas := seasonalComponent xs period
  let deseason := (List.range xs.length).map (fun i => xs.getD i 0 - seas.getD i 0)
  let trend := trendComponent deseason seasonal
  let resid := (List.range xs.length).map
    (fun i => xs.getD i 0 - trend.getD i 0 - seas.getD i 0)
  ⟨xs, trend, seas, resid⟩

/-- The outcome of `stl_analysis`: `(fig, None)`, `(None, message)`, or an
exception escaping the function (the page shell's catch-all is the only
handler on that path). -/
inductive StlOutcome where
  | figure (r : StlResult)
  | message (s : String)
  | exn (s : String)
deriving Repr, DecidableEq

/-- `stl_analysis(df, price_area, production_group, period, seasonal, trend,
robust)` with `trend=None` (the page never passes one).  `stlAvailable` is
the import-time `_STL_AVAILABLE` flag, checked before anything else.  The
parameter checks of the statsmodels primitive (period at least 2, seasonal an
odd integer at least 3 — modelled from the spec's preconditions, the
primitive is not repository code) raise, which `stl_analysis` does not
catch: those paths are `.exn`. -/
def stl_analysis (stlAvailable : Bool) (df : List Row) (pa pg : String)
    (period seasonal : ℕ) (robust : Bool) : StlOutcome :=
  if !stlAvailable then .message stlUnavailableMsg
  else
    let filtered := filterRows df pa pg
    if filtered.length = 0 then .message noDataMsg
    else
      let ts := toSeries (seriesValues filtered)
      if period < 2 then .exn "period must be a positive integer >= 2"
      else if seasonal % 2 = 0 ∨ seasonal < 3 then
        .exn "seasonal must be an odd positive integer >= 3"
      else .figure (stlDecompose ts period seasonal robust)

/-- The page script's odd-window normalization, applied to the slider value
before `stl_analysis` is called:
`if stl_seasonal % 2 == 0: stl_seasonal += 1`. -/
def normalizeSeasonal (w : ℕ) : ℕ :=
  if w % 2 = 0 then w + 1 else w

/-! ### Concrete data used by witnesses and counterexamples -/

/-- Four hourly rows of one (area, group) series, no gaps. -/
def sampleDf : List Row :=
  [⟨"NO1", "wind", 0, some 1⟩, ⟨"NO1", "wind", 1, some 2⟩,
   ⟨"NO1", "wind", 2, some 3⟩, ⟨"NO1", "wind", 3, some 4⟩]

/-- Five rows: a series of length 5. -/
def df5 : List Row :=
  [⟨"NO1", "wind", 0, some 1⟩, ⟨"NO1", "wind", 1, some 2⟩, ⟨"NO1", "wind", 2, some 3⟩,
   ⟨"NO1", "wind", 3, some 4⟩, ⟨"NO1", "wind", 4, some 5⟩]

/-- Eleven rows: a series of length 11 (values 0..10). -/
def df11 : List Row :=
  [⟨"NO1", "wind", 0, some 0⟩, ⟨"NO1", "wind", 1, some 1⟩, ⟨"NO1", "wind", 2, some 2⟩,
   ⟨"NO1", "wind", 3, some 3⟩, ⟨"NO1", "wind", 4, some 4⟩, ⟨"NO1", "wind", 5, some 5⟩,
   ⟨"NO1", "wind", 6, some 6⟩, ⟨"NO1", "wind", 7, some 7⟩, ⟨"NO1", "wind", 8, some 8⟩,
   ⟨"NO1", "wind", 9, some 9⟩, ⟨"NO1", "wind", 10, some 10⟩]

/-- Three rows with one internal gap. -/
def dfGap : List Row :=
  [⟨"NO1", "wind", 0, some 1⟩, ⟨"NO1", "wind", 1, none⟩, ⟨"NO1", "wind", 2, some 3⟩]

/-- A placeholder for the (unused) primary-path implementation in runs where
scipy is unavailable. -/
def scipyStub : List ℚ → ℕ → ℕ → Outcome SpectroData := fun _ _ _ => .message "stub"

/-- A concrete per-segment power function, for closed statements. -/
def powerStub : List ℚ → List ℚ := fun _ => []

/-! ### Helper lemmas -/

/-- Reading position `i < n` of a map over `List.range n`. -/
theorem rangeMap_getD (f : ℕ → ℚ) (n i : ℕ) (h : i < n) :
    ((List.range n).map f).getD i 0 = f i := by
  rw [List.getD_eq_getElem?_getD, List.getElem?_map, List.getElem?_range h]
  rfl

theorem stepOf_pos (L V : ℕ) : 1 ≤ stepOf L V := le_max_left 1 (L - V)

/-- The source's clamped floor-division segment count, rewritten as a natural
ceiling division: the `max 0` clamp of the Python formula coincides with
truncated natural subtraction. -/
theorem fallbackSegments_eq_div (n L V : ℕ) :
    fallbackSegments n L V = (n - V + stepOf L V - 1) / stepOf L V := by
  have hs1 : 1 ≤ stepOf L V := stepOf_pos L V
  unfold fallbackSegments
  rcases le_or_lt V n with h | h
  · have key : ((n : ℤ) - (V : ℤ) + (stepOf L V : ℤ) - 1) =
        ((n - V + stepOf L V - 1 : ℕ) : ℤ) := by omega
    rw [key, ← Int.ofNat_fdiv, max_eq_right (Int.natCast_nonneg _), Int.toNat_natCast]
  · have hdiv : (n - V + stepOf L V - 1) / stepOf L V = 0 := Nat.div_eq_of_lt (by omega)
    rcases le_or_lt 0 ((n : ℤ) - (V : ℤ) + (stepOf L V : ℤ) - 1) with hx | hx
    · have key : ((n : ℤ) - (V : ℤ) + (stepOf L V : ℤ) - 1) =
          ((((n : ℤ) - (V : ℤ) + (stepOf L V : ℤ) - 1).toNat : ℕ) : ℤ) := by omega
      rw [key, ← Int.ofNat_fdiv, max_eq_right (Int.natCast_nonneg _), Int.toNat_natCast,
        Nat.div_eq_of_lt (by omega), hdiv]
    · have hneg : ((n : ℤ) - (V : ℤ) + (stepOf L V : ℤ) - 1).fdiv (stepOf L V : ℤ) < 0 :=
        Int.fdiv_neg' hx (by exact_mod_cast hs1)
      rw [hdiv]
      omega

/-- The fallback produces no segment exactly when the series has no sample
past the overlap. -/
theorem fallbackSegments_eq_zero_iff (n L V : ℕ) :
    fallbackSegments n L V = 0 ↔ n ≤ V := by
  have hs1 : 1 ≤ stepOf L V := stepOf_pos L V
  rw [fallbackSegments_eq_div, Nat.div_eq_zero_iff (by omega)]
  omega

/-- Natural ceiling division `(a + t) / (t + 1)` as a rational ceiling. -/
theorem ceil_natDiv (a t : ℕ) :
    ⌈(a : ℚ) / ((t : ℚ) + 1)⌉ = (((a + t) / (t + 1) : ℕ) : ℤ) := by
  have hqr : ((a + t) / (t + 1)) * (t + 1) + (a + t) % (t + 1) = a + t := Nat.div_add_mod' _ _
  have hr : (a + t) % (t + 1) < t + 1 := Nat.mod_lt _ (by omega)
  set q := (a + t) / (t + 1) with hqdef
  set r := (a + t) % (t + 1) with hrdef
  have hq : (q : ℚ) * ((t : ℚ) + 1) + (r : ℚ) = (a : ℚ) + (t : ℚ) := by exact_mod_cast hqr
  have htq : (0 : ℚ) < (t : ℚ) + 1 := by positivity
  have hrq0 : (0 : ℚ) ≤ (r : ℚ) := by positivity
  have hrt : (r : ℚ) ≤ (t : ℚ) := by exact_mod_cast Nat.lt_succ_iff.mp hr
  rw [Int.ceil_eq_iff]
  constructor
  · rw [lt_div_iff₀ htq]
    push_cast
    linarith
  · rw [div_le_iff₀ htq]
    push_cast
    linarith

/-- The segment count of the fallback equals the spec's
`max(0, ceil((N - V) / (L - V)))` whenever `V < L`. -/
theorem fallbackSegments_eq_ceil (n L V : ℕ) (hV : V < L) :
    (fallbackSegments n L V : ℤ) = max 0 ⌈((n : ℚ) - (V : ℚ)) / ((L : ℚ) - (V : ℚ))⌉ := by
  have hs : stepOf L V = L - V := by unfold stepOf; omega
  obtain ⟨t, ht⟩ : ∃ t, L - V = t + 1 := ⟨L - V - 1, by omega⟩
  have hden : ((L : ℚ) - (V : ℚ)) = (t : ℚ) + 1 := by
    have hcast : ((L - V : ℕ) : ℚ) = ((t + 1 : ℕ) : ℚ) := by rw [ht]
    rw [Nat.cast_sub hV.le] at hcast
    push_cast at hcast
    linarith
  rcases le_or_lt V n with h | h
  · have hnum : ((n : ℚ) - (V : ℚ)) = ((n - V : ℕ) : ℚ) := by rw [Nat.cast_sub h]
    rw [fallbackSegments_eq_div, hs, hnum, hden, ceil_natDiv]
    have harg : n - V + (L - V) - 1 = (n - V) + t := by omega
    rw [harg, ht, max_eq_right (Int.natCast_nonneg _)]
  · have hzero : fallbackSegments n L V = 0 := (fallbackSegments_eq_zero_iff n L V).mpr h.le
    have hle : ((n : ℚ) - (V : ℚ)) / ((L : ℚ) - (V : ℚ)) ≤ 0 := by
      apply div_nonpos_iff.mpr
      right
      constructor
      · have hnv : (n : ℚ) < (V : ℚ) := by exact_mod_cast h
        linarith
      · have hvl : (V : ℚ) < (L : ℚ) := by exact_mod_cast hV
        linarith
    have hc : ⌈((n : ℚ) - (V : ℚ)) / ((L : ℚ) - (V : ℚ))⌉ ≤ 0 := Int.ceil_le.mpr (by simpa using hle)
    rw [hzero, max_eq_left hc]
    rfl

theorem ffillFrom_length (c : Option ℚ) (xs : List (Option ℚ)) :
    (ffillFrom c xs).length = xs.length := by
  induction xs generalizing c with
  | nil => rfl
  | cons x rest ih => cases x <;> simp [ffillFrom, ih]

/-- Forward filling never changes a present value. -/
theorem ffillFrom_preserves (c : Option ℚ) (xs : List (Option ℚ)) (i : ℕ) (q : ℚ)
    (h : xs.getD i none = some q) : (ffillFrom c xs).getD i none = some q := by
  induction xs generalizing c i with
  | nil => simp [List.getD] at h
  | cons x rest ih =>
    cases x with
    | some y =>
      cases i with
      | zero => simpa [ffillFrom] using h
      | succ i =>
        simp only [List.getD_cons_succ] at h
        simpa [ffillFrom, List.getD_cons_succ] using ih (some y) i h
    | none =>
      cases i with
      | zero => simp [List.getD_cons_zero] at h
      | succ i =>
        simp only [List.getD_cons_succ] at h
        simpa [ffillFrom, List.getD_cons_succ] using ih c i h

/-- Once a present value has been seen, every later position of the forward
fill is present. -/
theorem ffillFrom_all_some (c : Option ℚ) (hc : c.isSome) (xs : List (Option ℚ)) :
    ∀ y ∈ ffillFrom c xs, y.isSome := by
  induction xs generalizing c with
  | nil => intro y hy; simp [ffillFrom] at hy
  | cons x rest ih =>
    cases x with
    | some z =>
      intro y hy
      simp only [ffillFrom, List.mem_cons] at hy
      rcases hy with rfl | hy
      · rfl
      · exact ih (some z) rfl y hy
    | none =>
      intro y hy
      simp only [ffillFrom, List.mem_cons] at hy
      rcases hy with rfl | hy
      · exact hc
      · exact ih c hc y hy

/-- Forward fill is the identity on a list with no missing value. -/
theorem ffillFrom_id_of_all_some (c : Option ℚ) (xs : List (Option ℚ))
    (h : ∀ y ∈ xs, y.isSome) : ffillFrom c xs = xs := by
  induction xs generalizing c with
  | nil => rfl
  | cons x rest ih =>
    cases x with
    | some z => simp [ffillFrom, ih (some z) (fun y hy => h y (List.mem_cons_of_mem _ hy))]
    | none => exact absurd (h none (List.mem_cons_self _ _)) (by simp)

/-- A series whose first value is present forward-fills to a list with no
missing value. -/
theorem ffill_all_some_of_head (q : ℚ) (rest : List (Option ℚ)) :
    ∀ y ∈ ffill (some q :: rest), y.isSome := by
  intro y hy
  simp only [ffill, ffillFrom, List.mem_cons] at hy
  rcases hy with rfl | hy
  · rfl
  · exact ffillFrom_all_some (some q) rfl rest y hy

/-- Backward fill does nothing after a forward fill that left no missing
value. -/
theorem fillMissing_eq_ffill_of_all_some (xs : List (Option ℚ))
    (h : ∀ y ∈ ffill xs, y.isSome) : fillMissing xs = ffill xs := by
  unfold fillMissing bfill
  rw [show ffill (ffill xs).reverse = ffillFrom none (ffill xs).reverse from rfl]
  rw [ffillFrom_id_of_all_some _ _ (fun y hy => h y (List.mem_reverse.mp hy))]
  exact List.reverse_reverse _

theorem insertRow_length (r : Row) (l : List Row) :
    (insertRow r l).length = l.length + 1 := by
  induction l with
  | nil => rfl
  | cons s rest ih => unfold insertRow; split <;> simp [ih]

theorem sortRows_length (l : List Row) : (sortRows l).length = l.length := by
  induction l with
  | nil => rfl
  | cons r rest ih => simp [sortRows, insertRow_length, ih]

theorem toSeries_length (xs : List (Option ℚ)) : (toSeries xs).length = xs.length := by
  simp [toSeries, fillMissing, bfill, ffill, ffillFrom_length]

/-- The cleaned series is index-aligned with the filtered rows. -/
theorem selectSeries_length (df : List Row) (pa pg : String) :
    (selectSeries df pa pg).length = (filterRows df pa pg).length := by
  simp [selectSeries, toSeries_length, seriesValues, sortRows_length]

theorem extractSegment_length (p : List ℚ) (L start : ℕ) :
    (extractSegment p L start).length = L := by
  unfold extractSegment
  simp only [List.length_append, List.length_replicate, List.length_take, List.length_drop]
  omega

/-- Position `j` of segment `start..start+L` is sample `start + j` of the
series when that index exists, and the zero padding otherwise. -/
theorem extractSegment_getD (p : List ℚ) (L start j : ℕ) (hj : j < L) :
    (extractSegment p L start).getD j 0 =
      if start + j < p.length then p.getD (start + j) 0 else 0 := by
  unfold extractSegment
  simp only [List.getD_eq_getElem?_getD]
  have hseglen : ((p.drop start).take L).length = min L (p.length - start) := by
    simp [List.length_take, List.length_drop]
  rw [List.getElem?_append]
  rcases lt_or_le j ((p.drop start).take L).length with hlt | hge
  · rw [if_pos hlt]
    have hjlen : start + j < p.length := by omega
    rw [List.getElem?_take, if_pos hj, List.getElem?_drop, if_pos hjlen]
  · rw [if_neg (by omega)]
    have hplen : ¬ (start + j < p.length) := by omega
    rw [if_neg hplen, List.getElem?_replicate]
    have hlt2 : j - ((p.drop start).take L).length < L - ((p.drop start).take L).length := by
      omega
    rw [if_pos hlt2]
    rfl

/-- `stl_analysis` with the library available, written as its decision
chain (definitional unfolding). -/
theorem stl_analysis_true_eq (df : List Row) (pa pg : String)
    (period seasonal : ℕ) (robust : Bool) :
    stl_analysis true df pa pg period seasonal robust =
      (if (filterRows df pa pg).length = 0 then .message noDataMsg
       else if period < 2 then .exn "period must be a positive integer >= 2"
       else if seasonal % 2 = 0 ∨ seasonal < 3 then
         .exn "seasonal must be an odd positive integer >= 3"
       else .figure (stlDecompose (selectSeries df pa pg) period seasonal robust)) := rfl

/-- `spectrogram_analysis` on the fallback branch, written as its decision
chain (definitional unfolding). -/
theorem spectrogram_analysis_fallback_eq
    (scipyImpl : List ℚ → ℕ → ℕ → Outcome SpectroData) (powerOf : List ℚ → List ℚ)
    (df : List Row) (pa pg : String) (L V : ℕ) :
    spectrogram_analysis false scipyImpl powerOf df pa pg L V =
      (if (filterRows df pa pg).length = 0 then .message noDataMsg
       else if (selectSeries df pa pg).length < 1 ∨ L = 0 then .message invalidWindowMsg
       else if fallbackSegments (selectSeries df pa pg).length L V = 0 then
         .message notEnoughDataMsg
       else
         .figure ⟨rfftfreq L, fallbackTimes (selectSeries df pa pg).length L V,
           fallbackColumns powerOf (selectSeries df pa pg) L V⟩) := rfl

/-! ### Claim theorems -/

/-- C1: the fallback STFT evaluated at the failing input — a series of length
11 with window 4 and overlap 2.  The embedded source produces 5 segments
(`ceil((11-2)/2)`), the last one zero-padded, with time bins at the segment
starts `[0, 2, 4, 6, 8]`; `scipy.signal.spectrogram` at the same input
produces 4 segments (it drops the partial final segment) with time bins at
the segment centres `[2, 4, 6, 8]`, a periodic rather than symmetric Hann
window, per-segment mean removal and one-sided density scaling, so the two
paths are not numerically equivalent and the bins are not identical. -/
theorem fallback_stft_shape_at_failing_input (powerOf : List ℚ → List ℚ) :
    fallbackSegments 11 4 2 = 5 ∧
    fallbackTimes 11 4 2 = [0, 2, 4, 6, 8] ∧
    (selectSeries df11 "NO1" "wind").length = 11 ∧
    spectrogram_analysis false scipyStub powerOf df11 "NO1" "wind" 4 2 =
      .figure ⟨rfftfreq 4, [0, 2, 4, 6, 8],
        fallbackColumns powerOf (selectSeries df11 "NO1" "wind") 4 2⟩ :=
  ⟨by decide, by rfl, by rfl, rfl⟩

/-- C2 counterexample: the engine itself does not normalize an even seasonal
window.  `stl_analysis` passes `seasonal` to the STL primitive unchanged, so
at `seasonal = 4` the primitive's odd-window check raises while `seasonal = 5`
yields a figure: the two calls do not behave identically. -/
theorem stl_engine_does_not_normalize_even_seasonal :
    stl_analysis true sampleDf "NO1" "wind" 2 4 true ≠
      stl_analysis true sampleDf "NO1" "wind" 2 5 true := by
  decide

/-- C2 (amended): the odd-window normalization is performed by the page
script, not by the engine: for every even `w` the page replaces `w` by
`w + 1` before calling `stl_analysis`, so running the page at `w` calls the
engine exactly as at `w + 1`. -/
theorem page_normalizes_even_seasonal (w : ℕ) (hw : w % 2 = 0) (stlAvailable : Bool)
    (df : List Row) (pa pg : String) (period : ℕ) (robust : Bool) :
    normalizeSeasonal w = w + 1 ∧
    stl_analysis stlAvailable df pa pg period (normalizeSeasonal w) robust =
      stl_analysis stlAvailable df pa pg period (w + 1) robust := by
  have h : normalizeSeasonal w = w + 1 := by unfold normalizeSeasonal; rw [if_pos hw]
  exact ⟨h, by rw [h]⟩

/-- C2 witness: the page normalization at the even slider value 4. -/
theorem page_normalizes_even_seasonal_witness :
    normalizeSeasonal 4 = 4 + 1 ∧
    stl_analysis true sampleDf "NO1" "wind" 2 (normalizeSeasonal 4) true =
      stl_analysis true sampleDf "NO1" "wind" 2 (4 + 1) true :=
  page_normalizes_even_seasonal 4 rfl true sampleDf "NO1" "wind" 2 true

/-- C3: for a valid decomposition input — a non-empty selected series,
`period ≥ 2` and an odd seasonal window `≥ 3` — `stl_analysis` returns a
figure whose four component series are aligned to the selected series (equal
lengths, `original` the selected series itself) and satisfy
`trend + seasonal + residual = original` at every position, exactly over ℚ
(hence within any positive tolerance, in particular 1e-6). -/
theorem stl_additive_decomposition (df : List Row) (pa pg : String)
    (period seasonal : ℕ) (robust : Bool)
    (hne : filterRows df pa pg ≠ []) (hp : 2 ≤ period)
    (hodd : seasonal % 2 = 1) (h3 : 3 ≤ seasonal) :
    ∃ r : StlResult,
      stl_analysis true df pa pg period seasonal robust = .figure r ∧
      r.original = selectSeries df pa pg ∧
      r.trend.length = r.original.length ∧
      r.seasonal.length = r.original.length ∧
      r.resid.length = r.original.length ∧
      ∀ i, i < r.original.length →
        r.trend.getD i 0 + r.seasonal.getD i 0 + r.resid.getD i 0 = r.original.getD i 0 := by
  have hlen0 : ¬ ((filterRows df pa pg).length = 0) := by
    simpa [List.length_eq_zero] using hne
  refine ⟨stlDecompose (selectSeries df pa pg) period seasonal robust, ?_, rfl, ?_, ?_, ?_, ?_⟩
  · rw [stl_analysis_true_eq, if_neg hlen0, if_neg (by omega), if_neg (by omega)]
  · simp [stlDecompose, trendComponent]
  · simp [stlDecompose, seasonalComponent]
  · simp [stlDecompose]
  · intro i hi
    have hi' : i < (selectSeries df pa pg).length := hi
    show (trendComponent _ seasonal).getD i 0 + (seasonalComponent _ period).getD i 0 +
      (((List.range (selectSeries df pa pg).length).map _).getD i 0) =
        (selectSeries df pa pg).getD i 0
    rw [rangeMap_getD _ _ _ hi']
    ring

/-- C3 witness: the decomposition of the four-point sample series with
`period = 2`, `seasonal = 3`. -/
theorem stl_additive_decomposition_witness :
    ∃ r : StlResult,
      stl_analysis true sampleDf "NO1" "wind" 2 3 true = .figure r ∧
      r.original = selectSeries sampleDf "NO1" "wind" ∧
      r.trend.length = r.original.length ∧
      r.seasonal.length = r.original.length ∧
      r.resid.length = r.original.length ∧
      ∀ i, i < r.original.length →
        r.trend.getD i 0 + r.seasonal.getD i 0 + r.resid.getD i 0 = r.original.getD i 0 :=
  stl_additive_decomposition sampleDf "NO1" "wind" 2 3 true (by decide) (by decide) rfl
    (by decide)

/-- C4: for `0 ≤ V < L` the fallback's segment count equals
`max(0, ceil((N - V) / (L - V)))`; in particular `N = 10, L = 4, V = 2`
yields 4 segments; and segment `i` has length `L` and covers samples
`[i*step, i*step + L)` of the series, right-padded with zeros where the
series ends. -/
theorem spectrogram_segment_count_and_coverage (production : List ℚ) (L V : ℕ)
    (hV : V < L) :
    (fallbackSegments production.length L V : ℤ) =
      max 0 ⌈((production.length : ℚ) - (V : ℚ)) / ((L : ℚ) - (V : ℚ))⌉ ∧
    fallbackSegments 10 4 2 = 4 ∧
    ∀ i j : ℕ, j < L →
      (extractSegment production L (i * stepOf L V)).length = L ∧
      (extractSegment production L (i * stepOf L V)).getD j 0 =
        (if i * stepOf L V + j < production.length
          then production.getD (i * stepOf L V + j) 0 else 0) :=
  ⟨fallbackSegments_eq_ceil _ _ _ hV, by decide,
    fun i j hj => ⟨extractSegment_length _ _ _, extractSegment_getD _ _ _ _ hj⟩⟩

/-- A concrete ten-sample series. -/
def prod10 : List ℚ := [1, 2, 3, 4, 5, 6, 7, 8, 9, 10]

/-- C4 witness: the ten-sample series with window 4 and overlap 2. -/
theorem spectrogram_segment_count_and_coverage_witness :
    (fallbackSegments prod10.length 4 2 : ℤ) =
      max 0 ⌈((prod10.length : ℚ) - ((2 : ℕ) : ℚ)) / (((4 : ℕ) : ℚ) - ((2 : ℕ) : ℚ))⌉ ∧
    fallbackSegments 10 4 2 = 4 ∧
    ∀ i j : ℕ, j < 4 →
      (extractSegment prod10 4 (i * stepOf 4 2)).length = 4 ∧
      (extractSegment prod10 4 (i * stepOf 4 2)).getD j 0 =
        (if i * stepOf 4 2 + j < prod10.length
          then prod10.getD (i * stepOf 4 2 + j) 0 else 0) :=
  spectrogram_segment_count_and_coverage prod10 4 2 (by decide)

/-- C5 counterexample: a series of length 5 is shorter than
`window_length - window_overlap = 10 - 2 = 8`, yet the fallback does not
fail with "Not enough data for selected window/overlap settings" — it
produces a figure (one zero-padded segment), because the check compares the
length with the overlap, not with the step. -/
theorem short_series_fallback_succeeds :
    spectrogram_analysis false scipyStub powerStub df5 "NO1" "wind" 10 2 ≠
      .message notEnoughDataMsg := by
  decide

/-- C5 (amended): on the fallback branch with a non-empty selection,
`window_length = 0` fails with "Invalid window settings for spectrogram" and
no figure; "Not enough data for selected window/overlap settings" is
returned exactly when the series length is at most `window_overlap`
(equivalently, the segment count is 0) — not whenever the series is shorter
than `window_length - window_overlap`.  The primary branch performs no such
validation: it delegates to scipy directly. -/
theorem fallback_window_validation
    (scipyImpl : List ℚ → ℕ → ℕ → Outcome SpectroData) (powerOf : List ℚ → List ℚ)
    (df : List Row) (pa pg : String) (L V : ℕ)
    (hne : filterRows df pa pg ≠ []) :
    (L = 0 → spectrogram_analysis false scipyImpl powerOf df pa pg L V =
      .message invalidWindowMsg) ∧
    (1 ≤ L →
      (spectrogram_analysis false scipyImpl powerOf df pa pg L V =
          .message notEnoughDataMsg ↔
        (selectSeries df pa pg).length ≤ V)) := by
  have hlen0 : ¬ ((filterRows df pa pg).length = 0) := by
    simpa [List.length_eq_zero] using hne
  have hn1 : 1 ≤ (selectSeries df pa pg).length := by
    rw [selectSeries_length]
    omega
  constructor
  · intro hL
    rw [spectrogram_analysis_fallback_eq, if_neg hlen0, if_pos (Or.inr hL)]
  · intro hL
    rw [spectrogram_analysis_fallback_eq, if_neg hlen0, if_neg (by omega)]
    by_cases hseg : (selectSeries df pa pg).length ≤ V
    · rw [if_pos ((fallbackSegments_eq_zero_iff _ _ _).mpr hseg)]
      simp [hseg]
    · rw [if_neg (fun h => hseg ((fallbackSegments_eq_zero_iff _ _ _).mp h))]
      simp [hseg]

/-- C5 witness: series of length 5, window 3, overlap 7. -/
theorem fallback_window_validation_witness :
    ((3 : ℕ) = 0 → spectrogram_analysis false scipyStub powerStub df5 "NO1" "wind" 3 7 =
      .message invalidWindowMsg) ∧
    (1 ≤ (3 : ℕ) →
      (spectrogram_analysis false scipyStub powerStub df5 "NO1" "wind" 3 7 =
          .message notEnoughDataMsg ↔
        (selectSeries df5 "NO1" "wind").length ≤ 7)) :=
  fallback_window_validation scipyStub powerStub df5 "NO1" "wind" 3 7 (by decide)

/-- C6: when the categorical filter matches no row, both engines return the
exact NoData message "No data available for selected combination" and no
figure, with no escaping exception (the outcome is a `message`, not an
`exn`), for every dataset, parameter choice and spectrogram branch, with the
decomposition library available. -/
theorem empty_filter_no_data (df : List Row) (pa pg : String)
    (period seasonal : ℕ) (robust : Bool) (scipyAvailable : Bool)
    (scipyImpl : List ℚ → ℕ → ℕ → Outcome SpectroData) (powerOf : List ℚ → List ℚ)
    (L V : ℕ) (h : filterRows df pa pg = []) :
    stl_analysis true df pa pg period seasonal robust = .message noDataMsg ∧
    spectrogram_analysis scipyAvailable scipyImpl powerOf df pa pg L V =
      .message noDataMsg := by
  have h0 : (filterRows df pa pg).length = 0 := by rw [h]; rfl
  constructor
  · rw [stl_analysis_true_eq, if_pos h0]
  · show (if (filterRows df pa pg).length = 0 then Outcome.message noDataMsg else _) =
      Outcome.message noDataMsg
    rw [if_pos h0]

/-- C6 witness: a filter pair matching no row of the sample dataset. -/
theorem empty_filter_no_data_witness :
    stl_analysis true sampleDf "SE1" "wind" 24 7 true = .message noDataMsg ∧
    spectrogram_analysis true scipyStub powerStub sampleDf "SE1" "wind" 168 84 =
      .message noDataMsg :=
  empty_filter_no_data sampleDf "SE1" "wind" 24 7 true true scipyStub powerStub 168 84
    (by decide)

/-- C7: a selected series whose missing values are all internal (and with at
least one present value) leaves the selector stage with no missing value,
and every originally present position is unchanged (the output also keeps
the length). -/
theorem gap_fill_completeness (df : List Row) (pa pg : String)
    (hinternal : ∀ i, i < (seriesValues (filterRows df pa pg)).length →
      (seriesValues (filterRows df pa pg)).getD i none = none →
      0 < i ∧ i + 1 < (seriesValues (filterRows df pa pg)).length)
    (hsome : ∃ i, i < (seriesValues (filterRows df pa pg)).length ∧
      ((seriesValues (filterRows df pa pg)).getD i none).isSome) :
    (∀ y ∈ fillMissing (seriesValues (filterRows df pa pg)), y.isSome) ∧
    (∀ i q, (seriesValues (filterRows df pa pg)).getD i none = some q →
      (fillMissing (seriesValues (filterRows df pa pg))).getD i none = some q) ∧
    (fillMissing (seriesValues (filterRows df pa pg))).length =
      (seriesValues (filterRows df pa pg)).length := by
  set vs := seriesValues (filterRows df pa pg) with hvsdef
  obtain ⟨i, hi, hisome⟩ := hsome
  obtain ⟨v, rest, hvs⟩ : ∃ v rest, vs = v :: rest := by
    cases hvse : vs with
    | nil => rw [hvse] at hi; simp at hi
    | cons a b => exact ⟨a, b, rfl⟩
  obtain ⟨q0, hq0⟩ : ∃ q0, v = some q0 := by
    cases hv : v with
    | none =>
      have h0 := hinternal 0 (by rw [hvs]; simp) (by rw [hvs, hv]; simp)
      omega
    | some z => exact ⟨z, rfl⟩
  have hall : ∀ y ∈ ffill vs, y.isSome := by
    rw [hvs, hq0]
    exact ffill_all_some_of_head q0 rest
  have hfm : fillMissing vs = ffill vs := fillMissing_eq_ffill_of_all_some vs hall
  refine ⟨?_, ?_, ?_⟩
  · rw [hfm]
    exact hall
  · intro j q hj
    rw [hfm]
    exact ffillFrom_preserves none vs j q hj
  · rw [hfm]
    exact ffillFrom_length none vs

/-- C7 witness: the three-row series with one internal gap. -/
theorem gap_fill_completeness_witness :
    (∀ y ∈ fillMissing (seriesValues (filterRows dfGap "NO1" "wind")), y.isSome) ∧
    (∀ i q, (seriesValues (filterRows dfGap "NO1" "wind")).getD i none = some q →
      (fillMissing (seriesValues (filterRows dfGap "NO1" "wind"))).getD i none = some q) ∧
    (fillMissing (seriesValues (filterRows dfGap "NO1" "wind"))).length =
      (seriesValues (filterRows dfGap "NO1" "wind")).length :=
  gap_fill_completeness dfGap "NO1" "wind"
    (by
      intro i hi hnone
      have hvs : seriesValues (filterRows dfGap "NO1" "wind") = [some 1, none, some 3] := rfl
      rw [hvs] at hi hnone
      rw [hvs]
      simp only [List.length_cons, List.length_nil] at hi ⊢
      interval_cases i <;> simp_all)
    ⟨0, by decide, by decide⟩

/-- C8: with statsmodels unavailable, `stl_analysis` returns no figure and
exactly the LibraryUnavailable message, for every input. -/
theorem stl_unavailable_message (df : List Row) (pa pg : String)
    (period seasonal : ℕ) (robust : Bool) :
    stl_analysis false df pa pg period seasonal robust = .message stlUnavailableMsg := rfl

/-- C9: the library-availability check precedes the data filtering: even for
a filter pair matching zero rows, an unavailable library yields the
LibraryUnavailable message, not the NoData message. -/
theorem library_check_precedes_filter (df : List Row) (pa pg : String)
    (period seasonal : ℕ) (robust : Bool) (h : filterRows df pa pg = []) :
    stl_analysis false df pa pg period seasonal robust = .message stlUnavailableMsg := rfl

/-- C9 witness: an empty-filter combination with the library unavailable. -/
theorem library_check_precedes_filter_witness :
    stl_analysis false sampleDf "SE1" "wind" 24 7 true = .message stlUnavailableMsg :=
  library_check_precedes_filter sampleDf "SE1" "wind" 24 7 true (by decide)

/-- C10: the fallback's step size is clamped to at least 1 for every window
and overlap (in particular it is exactly 1 when the overlap reaches the
window length), so the segment count is a finite natural number and the
segment loop runs exactly `segments` iterations: the column list and the
time list both have length `segments`. -/
theorem fallback_step_clamped_and_terminates (L V : ℕ) (powerOf : List ℚ → List ℚ)
    (production : List ℚ) :
    1 ≤ stepOf L V ∧
    (L ≤ V → stepOf L V = 1) ∧
    (fallbackColumns powerOf production L V).length =
      fallbackSegments production.length L V ∧
    (fallbackTimes production.length L V).length =
      fallbackSegments production.length L V := by
  refine ⟨stepOf_pos L V, ?_, ?_, ?_⟩
  · intro h
    unfold stepOf
    omega
  · simp [fallbackColumns]
  · simp [fallbackTimes]

end Spec2Proof
